import Mathlib

/-!
Shallow embedding of the gurch101 go-web middleware package (package
httputils): the rate-limit middleware with its client state store and
idle reaper, the request-correlation logging middleware, the panic
recovery middleware, and the environment-driven rate-limit
configuration. Machine time is modelled as rational seconds; the Go
float64 rate is modelled as a rational number.
-/

namespace GoWeb

/-- Wall-clock instants and durations, in seconds. -/
abbrev Time := ℚ

/-- A structured error value: the kind names the sentinel error the value
wraps (the source wraps ErrPanic for recovered panics) and msg is the
rendered message. -/
structure ErrVal where
  kind : String
  msg : String
deriving Repr, DecidableEq

/-- The observable state of a response writer: whether the Connection
close header has been set, and the ordered list of (status, error)
responses written so far. -/
structure RW where
  connectionClose : Bool
  writes : List (ℕ × ErrVal)
deriving Repr, DecidableEq

def emptyRW : RW := ⟨false, []⟩

/-- Modelled from the spec: ServerErrorResponse (a response-writer
collaborator of this repository not present under src) renders a
status 500 structured error envelope. -/
def ServerErrorResponse (w : RW) (e : ErrVal) : RW :=
  { w with writes := w.writes ++ [(500, e)] }

/-- Modelled from the spec: RateLimitExceededResponse (a response-writer
collaborator of this repository not present under src) renders a
status 429 structured error envelope. -/
def RateLimitExceededResponse (w : RW) : RW :=
  { w with writes := w.writes ++ [(429, ⟨"", "rate limit exceeded"⟩)] }

/-- An HTTP request as the middlewares observe it: the transport remote
address, the value of the X-Request-ID header as returned by Header.Get
(empty string when the header is absent), and the correlation id stored
in the request context under LogRequestIDKey. -/
structure Request where
  remoteAddr : String
  xRequestID : String
  ctxRequestID : Option String
deriving Repr, DecidableEq

/-- An inner handler: consumes a request and transforms the response
writer. -/
abbrev Handler := Request → RW → RW

/-- Splits a character list on a separator character. -/
def splitOnChar (sep : Char) : List Char → List (List Char)
  | [] => [[]]
  | c :: rest =>
      let r := splitOnChar sep rest
      if c = sep then [] :: r
      else
        match r with
        | [] => [[c]]
        | g :: gs => (c :: g) :: gs

/-- Model of net.SplitHostPort from the Go standard library, restricted
to the plain host colon port form the middleware relies on: a string
with exactly one colon splits into host and port; a string with no
colon (missing port) or several colons (too many colons) is an error,
reported here as none. -/
def splitHostPort (s : String) : Option (String × String) :=
  match splitOnChar ':' s.data with
  | [h, p] => some (String.mk h, String.mk p)
  | _ => none

/-- The rate-limit configuration read once at middleware construction. -/
structure RateLimitConfig where
  enabled : Bool
  rate : ℚ
  burst : ℤ
deriving Repr, DecidableEq

/-- Modelled from the spec: the token-bucket limiter (the source uses
the external golang.org x time rate package, which is not part of this
repository). Tokens accumulate continuously at rate, capped at burst;
each allow call consumes one token when at least one is available. -/
structure Limiter where
  rate : ℚ
  burst : ℤ
  tokens : ℚ
  last : Time
deriving Repr, DecidableEq

/-- Modelled from the spec: a fresh limiter holds a full bucket of
burst tokens. -/
def Limiter.new (r : ℚ) (b : ℤ) (now : Time) : Limiter :=
  ⟨r, b, (b : ℚ), now⟩

/-- Modelled from the spec: the allow query. Accrue tokens for the
elapsed time, capped at burst; admit and consume one token when at
least one is available, otherwise deny with no mutation beyond the
bookkeeping of elapsed time. -/
def Limiter.allow (l : Limiter) (now : Time) : Bool × Limiter :=
  let t := min ((l.burst : ℚ)) (l.tokens + (now - l.last) * l.rate)
  if 1 ≤ t then (true, { l with tokens := t - 1, last := now })
  else (false, { l with tokens := t, last := now })

/-- A sequence of allow queries at the given instants, returning the
decisions in order together with the final limiter state. -/
def Limiter.allowRun : Limiter → List Time → List Bool × Limiter
  | l, [] => ([], l)
  | l, t :: ts =>
      let p := l.allow t
      let q := p.2.allowRun ts
      (p.1 :: q.1, q.2)

/-- A client entry of the state store: the owned limiter and the
last-seen timestamp (type client in the source). -/
structure Client where
  limiter : Limiter
  lastSeen : Time
deriving Repr, DecidableEq

/-- The client state store: the clients map of the middleware closure,
keyed by client identity. -/
abbrev Store := String → Option Client

def emptyStore : Store := fun _ => none

def updateStore (s : Store) (ip : String) (c : Client) : Store :=
  fun k => if k = ip then some c else s k

/-- The fetch-or-create block of the per-request handler: a missing
identity gets a fresh entry with a full bucket and lastSeen now; an
existing entry has its lastSeen refreshed. Returns the updated store
and the entry the request proceeds with. -/
def getOrCreate (s : Store) (ip : String) (cfg : RateLimitConfig) (now : Time) :
    Store × Client :=
  match s ip with
  | none =>
      let c : Client := ⟨Limiter.new cfg.rate cfg.burst now, now⟩
      (updateStore s ip c, c)
  | some c =>
      let c2 : Client := { c with lastSeen := now }
      (updateStore s ip c2, c2)

/-- Result of one pass of the rate-limit request handler: the updated
store, the response-writer state, and whether the request was forwarded
to the inner handler. -/
structure RLResult where
  store : Store
  rw : RW
  forwarded : Bool

/-- The admission part of the per-request handler, after the client
identity has been resolved: fetch or create the entry, query its
limiter, persist the mutated limiter, and either forward to the inner
handler or write the 429 response and stop. -/
def rateLimitHandle (cfg : RateLimitConfig) (ip : String) (next : Handler)
    (s : Store) (now : Time) (r : Request) (w : RW) : RLResult :=
  let sc := getOrCreate s ip cfg now
  let al := sc.2.limiter.allow now
  let s2 := updateStore sc.1 ip { sc.2 with limiter := al.2 }
  if al.1 then ⟨s2, next r w, true⟩
  else ⟨s2, RateLimitExceededResponse w, false⟩

/-- The body of the handler returned by RateLimitMiddleware when the
configuration is enabled. On an address that does not parse, the source
writes the server error response but does not return: it falls through
with the zero-value host (the empty string) that SplitHostPort returned
alongside the error. -/
def rateLimitStep (cfg : RateLimitConfig) (next : Handler)
    (s : Store) (now : Time) (r : Request) (w : RW) : RLResult :=
  match splitHostPort r.remoteAddr with
  | some hp => rateLimitHandle cfg hp.1 next s now r w
  | none =>
      rateLimitHandle cfg "" next s now r
        (ServerErrorResponse w ⟨"", "could not parse remote address"⟩)

/-- The constructed middleware: either the inner handler returned
unwrapped (disabled configuration, no store and no reaper created), or
the wrapping handler together with the initially empty store it owns. -/
inductive MW where
  | passthrough (h : Handler)
  | limited (initStore : Store) (step : Store → Time → Request → RW → RLResult)

/-- RateLimitMiddleware: read the configuration; when disabled, return
the inner handler itself; when enabled, create the empty clients map,
start the reaper, and return the admission-controlled handler. -/
def RateLimitMiddleware (cfg : RateLimitConfig) (next : Handler) : MW :=
  if cfg.enabled then
    MW.limited emptyStore (fun s now r w => rateLimitStep cfg next s now r w)
  else
    MW.passthrough next

/-- Serving one request through the constructed middleware. A
passthrough serves by handing the unchanged request to the inner
handler, touching no store. -/
def MW.serve : MW → Store → Time → Request → RW → RLResult
  | .passthrough h, s, _, r, w => ⟨s, h r w, true⟩
  | .limited _ step, s, now, r, w => step s now r w

/-- The fixed wake interval of the reaper loop, in seconds (one
minute in the source). -/
def sweepInterval : ℚ := 60

/-- The staleness threshold of the reaper sweep, in seconds (three
minutes in the source). -/
def stalenessThreshold : ℚ := 180

/-- One pass of the background reaper loop: delete every entry whose
lastSeen lies more than the staleness threshold in the past, keep all
others. -/
def sweep (s : Store) (now : Time) : Store := fun ip =>
  match s ip with
  | some c => if now - c.lastSeen > stalenessThreshold then none else some c
  | none => none

/-- The environment variables the rate-limit configuration reads:
RATE_LIMIT_ENABLED, RATE_LIMIT_RATE and RATE_LIMIT_BURST, each either
set to a string or unset. -/
structure Env where
  rateLimitEnabled : Option String
  rateLimitRate : Option String
  rateLimitBurst : Option String
deriving Repr, DecidableEq

def digitVal (c : Char) : Option ℕ :=
  if c.isDigit then some (c.toNat - 48) else none

def parseNatCore (cs : List Char) : Option ℕ :=
  List.foldl (fun acc c =>
    match acc, digitVal c with
    | some n, some d => some (n * 10 + d)
    | _, _ => none) (some 0) cs

/-- Decimal natural-number numerals. -/
def parseNatStr (s : String) : Option ℕ :=
  if s.data.isEmpty then none else parseNatCore s.data

/-- Decimal integer numerals with an optional leading minus sign. -/
def parseIntStr (s : String) : Option ℤ :=
  match s.data with
  | '-' :: rest =>
      if rest.isEmpty then none
      else (parseNatCore rest).map (fun n => -(n : ℤ))
  | _ => (parseNatStr s).map (fun n => (n : ℤ))

def parsePosRat (s : String) : Option ℚ :=
  match splitOnChar '.' s.data with
  | [whole] => (parseNatStr (String.mk whole)).map (fun n => (n : ℚ))
  | [whole, frac] =>
      match parseNatStr (String.mk whole), parseNatCore frac with
      | some n, some fr =>
          if frac.isEmpty then none
          else some ((n : ℚ) + (fr : ℚ) / (10 : ℚ) ^ frac.length)
      | _, _ => none
  | _ => none

/-- Decimal numerals with an optional fractional part and an optional
leading minus sign, the numeric forms the float configuration values
take; everything else is a parse failure. -/
def parseRatStr (s : String) : Option ℚ :=
  match s.data with
  | '-' :: rest => (parsePosRat (String.mk rest)).map (fun q => -q)
  | _ => parsePosRat s

/-- Modelled from the spec: parser.ParseEnvBool (pkg parser belongs to
this repository but is not present under src). An unset or unrecognized
variable yields the default. -/
def ParseEnvBool (v : Option String) (dflt : Bool) : Bool :=
  match v with
  | none => dflt
  | some s => if s = "true" then true else if s = "false" then false else dflt

/-- Modelled from the spec: parser.ParseEnvFloat64 (pkg parser belongs
to this repository but is not present under src). An unset variable
yields the default; a set variable that is not a valid numeral is an
error. -/
def ParseEnvFloat64 (v : Option String) (dflt : ℚ) : Except String ℚ :=
  match v with
  | none => .ok dflt
  | some s =>
      match parseRatStr s with
      | some q => .ok q
      | none => .error ("invalid float value " ++ s)

/-- Modelled from the spec: parser.ParseEnvInt (pkg parser belongs to
this repository but is not present under src). An unset variable yields
the default; a set variable that is not a valid numeral is an error. -/
def ParseEnvInt (v : Option String) (dflt : ℤ) : Except String ℤ :=
  match v with
  | none => .ok dflt
  | some s =>
      match parseIntStr s with
      | some n => .ok n
      | none => .error ("invalid int value " ++ s)

def defaultRateLimitRate : ℚ := 10

def defaultRateLimitBurst : ℤ := 20

/-- getRateLimitConfig: start from the defaults with the enable flag
read from the environment; when disabled, return at once without
touching the numeric variables; when enabled, parse the rate and burst
overrides, turning a parse failure into a startup error (a panic in the
source). -/
def getRateLimitConfig (env : Env) : Except String RateLimitConfig :=
  let cfg : RateLimitConfig :=
    { enabled := ParseEnvBool env.rateLimitEnabled true
      rate := defaultRateLimitRate
      burst := defaultRateLimitBurst }
  if !cfg.enabled then .ok cfg
  else
    match ParseEnvFloat64 env.rateLimitRate cfg.rate with
    | .error e => .error e
    | .ok rt =>
        match ParseEnvInt env.rateLimitBurst cfg.burst with
        | .error e => .error e
        | .ok b => .ok { cfg with rate := rt, burst := b }

/-- Modelled from the spec: the external UUID generator (the google
uuid package, not part of this repository), represented as an injective
supply of fresh identifiers indexed by a generation counter. -/
def uuidGen (n : ℕ) : String := String.mk (List.replicate (n + 1) 'u')

/-- Result of the logging middleware on one request: the next generator
state, the correlation identifier attached to the request context, and
the response-writer state after the inner handler ran. -/
structure LogResult where
  gen : ℕ
  ctxID : String
  rw : RW

/-- LoggingMiddleware: a non-empty X-Request-ID header is tagged with
the ext- prefix and attached to the request context; otherwise a fresh
generated identifier is attached. The inner handler then runs on the
request carrying the identifier. -/
def LoggingMiddleware (next : Handler) (gen : ℕ) (r : Request) (w : RW) : LogResult :=
  if r.xRequestID ≠ "" then
    ⟨gen, "ext-" ++ r.xRequestID,
      next { r with ctxRequestID := some ("ext-" ++ r.xRequestID) } w⟩
  else
    ⟨gen + 1, uuidGen gen,
      next { r with ctxRequestID := some (uuidGen gen) } w⟩

/-- How one inner-handler invocation terminates: normally, or by a
panic carrying the recovered value rendered as a string. -/
inductive Outcome where
  | ok
  | panicked (msg : String)
deriving Repr, DecidableEq

/-- An inner handler as the recovery middleware observes it: the
response-writer state it produced before terminating, and how it
terminated. -/
abbrev PanicHandler := Request → RW → RW × Outcome

/-- The sentinel error value ErrPanic. -/
def ErrPanic : String := "panic"

/-- The error the recovery middleware builds with fmt.Errorf from
ErrPanic and the recovered value: it wraps the panic sentinel and
renders the message panic colon value. -/
def wrapPanic (v : String) : ErrVal := ⟨ErrPanic, ErrPanic ++ ": " ++ v⟩

/-- RecoveryMiddleware: on normal completion of the inner handler the
response is left untouched; on a panic, set the Connection close header
and write the single 500 server-error response wrapping the recovered
value. -/
def RecoveryMiddleware (next : PanicHandler) (r : Request) (w : RW) : RW :=
  match next r w with
  | (wOut, .ok) => wOut
  | (wOut, .panicked v) =>
      ServerErrorResponse { wOut with connectionClose := true } (wrapPanic v)

/-- The configuration of the concurrency scenario: enabled, rate zero,
burst one. -/
def oneShotCfg : RateLimitConfig := ⟨true, 0, 1⟩

/-- A serialized schedule of requests through the enabled rate-limit
handler, one request per instant in the list, collecting the admission
decisions. The coarse mutex of the source linearizes every concurrent
schedule into such a sequence. -/
def runDecisions (cfg : RateLimitConfig) (r : Request) : Store → List Time → List Bool
  | _, [] => []
  | s, now :: ts =>
      let res := rateLimitStep cfg (fun _ w => w) s now r emptyRW
      res.forwarded :: runDecisions cfg r res.store ts

/-- Whether middleware construction aborted process startup. -/
def isStartupError (e : Except String RateLimitConfig) : Bool :=
  match e with
  | .error _ => true
  | .ok _ => false

/-! ### Helper lemmas -/

theorem updateStore_self (s : Store) (ip : String) (c : Client) :
    updateStore s ip c ip = some c := by
  simp [updateStore]

theorem updateStore_ne (s : Store) (ip b : String) (c : Client) (h : b ≠ ip) :
    updateStore s ip c b = s b := by
  simp [updateStore, h]

theorem getOrCreate_lastSeen (s : Store) (ip : String) (cfg : RateLimitConfig)
    (now : Time) : (getOrCreate s ip cfg now).2.lastSeen = now := by
  cases h : s ip <;> simp [getOrCreate, h]

theorem getOrCreate_fst_ne (s : Store) (ip b : String) (cfg : RateLimitConfig)
    (now : Time) (h : b ≠ ip) : (getOrCreate s ip cfg now).1 b = s b := by
  cases hs : s ip <;> simp [getOrCreate, hs, updateStore, h]

theorem getOrCreate_agree (s1 s2 : Store) (ip : String) (cfg : RateLimitConfig)
    (now : Time) (h : s1 ip = s2 ip) :
    (getOrCreate s1 ip cfg now).2 = (getOrCreate s2 ip cfg now).2 := by
  unfold getOrCreate
  rw [h]
  cases hs : s2 ip <;> simp [hs]

theorem rateLimitHandle_store (cfg : RateLimitConfig) (ip : String)
    (next : Handler) (s : Store) (now : Time) (r : Request) (w : RW) :
    (rateLimitHandle cfg ip next s now r w).store =
      updateStore (getOrCreate s ip cfg now).1 ip
        { (getOrCreate s ip cfg now).2 with
            limiter := ((getOrCreate s ip cfg now).2.limiter.allow now).2 } := by
  simp only [rateLimitHandle]
  split <;> rfl

theorem rateLimitHandle_forwarded (cfg : RateLimitConfig) (ip : String)
    (next : Handler) (s : Store) (now : Time) (r : Request) (w : RW) :
    (rateLimitHandle cfg ip next s now r w).forwarded =
      ((getOrCreate s ip cfg now).2.limiter.allow now).1 := by
  simp only [rateLimitHandle]
  split <;> simp_all

/-! ### Claims -/

/-- Claim C1: the claim says a request whose remote address cannot be
split into host and port is answered with a server error and the inner
handler is not invoked. The source writes the server error but lacks a
return statement: at the concrete failing input below (enabled default
configuration, empty store, remote address without a port) the handler
falls through with the empty identity, the fresh limiter admits, and
the request is still forwarded to the inner handler. -/
theorem c1_parse_failure_still_forwards :
    ((RateLimitMiddleware ⟨true, 10, 20⟩ (fun _ w => w)).serve emptyStore 0
        ⟨"bad", "", none⟩ emptyRW).forwarded = true ∧
    ((RateLimitMiddleware ⟨true, 10, 20⟩ (fun _ w => w)).serve emptyStore 0
        ⟨"bad", "", none⟩ emptyRW).rw.writes =
      [(500, ⟨"", "could not parse remote address"⟩)] := by
  have h : splitHostPort "bad" = none := by decide
  constructor <;>
    simp [RateLimitMiddleware, MW.serve, rateLimitStep, h, rateLimitHandle,
      getOrCreate, Limiter.new, Limiter.allow, emptyStore, ServerErrorResponse,
      emptyRW]

/-- Claim C2: with a disabled configuration the rate-limit middleware
is the inner handler itself: construction returns the passthrough, so
no client state store and no reaper are created, and serving any
request hands the unchanged request to the inner handler and leaves
every store untouched. -/
theorem c2_disabled_passthrough (cfg : RateLimitConfig) (next : Handler)
    (h : cfg.enabled = false) :
    RateLimitMiddleware cfg next = MW.passthrough next ∧
    ∀ s now r w,
      (RateLimitMiddleware cfg next).serve s now r w = ⟨s, next r w, true⟩ := by
  have h1 : RateLimitMiddleware cfg next = MW.passthrough next := by
    simp [RateLimitMiddleware, h]
  exact ⟨h1, fun s now r w => by rw [h1]; rfl⟩

theorem c2_disabled_passthrough_witness :
    (RateLimitMiddleware ⟨false, 10, 20⟩ (fun _ w => w)).serve emptyStore 0
        ⟨"1.2.3.4:80", "", none⟩ emptyRW = ⟨emptyStore, emptyRW, true⟩ :=
  (c2_disabled_passthrough ⟨false, 10, 20⟩ (fun _ w => w) rfl).2 emptyStore 0
    ⟨"1.2.3.4:80", "", none⟩ emptyRW

/-- Claim C8 counterexample: the claim quantifies over every
environment in which the rate or burst variable holds an invalid
numeric value. In the environment below the value abc of the rate
variable is invalid, yet construction succeeds, because the disabled
flag makes getRateLimitConfig return before parsing the numeric
variables. -/
theorem c8_counterexample :
    parseRatStr "abc" = none ∧
    getRateLimitConfig ⟨some "false", some "abc", none⟩ =
      .ok ⟨false, 10, 20⟩ := by
  exact ⟨by decide, rfl⟩

/-- Claim C8 (amended): for every environment in which rate limiting is
enabled and the rate or burst environment variable holds an invalid
numeric value, middleware construction fails; with no overrides, the
effective configuration is enabled with rate 10 and burst 20. -/
theorem c8_config_errors (env : Env) (s : String)
    (hen : ParseEnvBool env.rateLimitEnabled true = true)
    (hbad : (env.rateLimitRate = some s ∧ parseRatStr s = none) ∨
      (env.rateLimitBurst = some s ∧ parseIntStr s = none)) :
    isStartupError (getRateLimitConfig env) = true ∧
    getRateLimitConfig ⟨none, none, none⟩ = .ok ⟨true, 10, 20⟩ := by
  refine ⟨?_, rfl⟩
  unfold getRateLimitConfig
  rw [hen]
  rcases hbad with ⟨hr, hps⟩ | ⟨hb, hps⟩
  · simp [ParseEnvFloat64, hr, hps, isStartupError]
  · cases hfl : ParseEnvFloat64 env.rateLimitRate defaultRateLimitRate with
    | error e => simp [hfl, isStartupError]
    | ok rt => simp [hfl, ParseEnvInt, hb, hps, isStartupError]

theorem c8_config_errors_witness :
    isStartupError (getRateLimitConfig ⟨none, some "abc", none⟩) = true ∧
    getRateLimitConfig ⟨none, none, none⟩ = .ok ⟨true, 10, 20⟩ :=
  c8_config_errors ⟨none, some "abc", none⟩ "abc" rfl (Or.inl ⟨rfl, by decide⟩)

/-- Claim C10: when the enable flag is false, the numeric rate and
burst variables are never parsed: construction succeeds whatever those
variables hold, and the returned configuration keeps the defaults of
rate 10 and burst 20. -/
theorem c10_disabled_skips_numeric_env (env : Env)
    (h : env.rateLimitEnabled = some "false") :
    getRateLimitConfig env = .ok ⟨false, 10, 20⟩ := by
  simp [getRateLimitConfig, ParseEnvBool, h, defaultRateLimitRate,
    defaultRateLimitBurst]

theorem c10_disabled_skips_numeric_env_witness :
    getRateLimitConfig ⟨some "false", some "abc", some "xyz"⟩ =
      .ok ⟨false, 10, 20⟩ :=
  c10_disabled_skips_numeric_env ⟨some "false", some "abc", some "xyz"⟩ rfl

/-- Claim C5: a request carrying a non-empty X-Request-ID header value
receives the context identifier ext- followed by that value, attached
before the inner handler runs (the inner handler observes it in the
request context); a header-less request receives a freshly generated
identifier, the generator never repeats an identifier, and in
particular two header-less requests processed in sequence receive
different identifiers. -/
theorem c5_correlation_id (next : Handler) (gen : ℕ) (r r2 : Request)
    (w w2 : RW) :
    (r.xRequestID ≠ "" →
      LoggingMiddleware next gen r w =
        ⟨gen, "ext-" ++ r.xRequestID,
          next { r with ctxRequestID := some ("ext-" ++ r.xRequestID) } w⟩) ∧
    (r.xRequestID = "" →
      LoggingMiddleware next gen r w =
        ⟨gen + 1, uuidGen gen,
          next { r with ctxRequestID := some (uuidGen gen) } w⟩) ∧
    (∀ m n : ℕ, m ≠ n → uuidGen m ≠ uuidGen n) ∧
    (r.xRequestID = "" → r2.xRequestID = "" →
      (LoggingMiddleware next (LoggingMiddleware next gen r w).gen r2 w2).ctxID ≠
        (LoggingMiddleware next gen r w).ctxID) := by
  have hinj : ∀ m n : ℕ, m ≠ n → uuidGen m ≠ uuidGen n := by
    intro m n hmn heq
    apply hmn
    have hlen := congrArg (fun t => t.data.length) heq
    simpa [uuidGen] using hlen
  refine ⟨?_, ?_, hinj, ?_⟩
  · intro h
    simp [LoggingMiddleware, h]
  · intro h
    simp [LoggingMiddleware, h]
  · intro h1 h2
    simp only [LoggingMiddleware, h1, h2, ne_eq, not_true_eq_false, if_false,
      ite_false]
    exact hinj (gen + 1) gen (by omega)

theorem c5_correlation_id_witness :
    LoggingMiddleware (fun _ w => w) 0 ⟨"1.2.3.4:80", "abc123", none⟩ emptyRW =
      ⟨0, "ext-abc123", emptyRW⟩ :=
  (c5_correlation_id (fun _ w => w) 0 ⟨"1.2.3.4:80", "abc123", none⟩
    ⟨"1.2.3.4:80", "", none⟩ emptyRW emptyRW).1 (by decide)

/-- Claim C6: when the inner handler panics, the recovery middleware
sets the Connection close header and appends exactly one server-error
response of status 500 whose error wraps the recovered value with the
panic sentinel; when the inner handler completes normally the recovery
middleware returns its response untouched. -/
theorem c6_recovery (next : PanicHandler) (r : Request) (w wOut : RW) :
    (∀ v, next r w = (wOut, .panicked v) →
      RecoveryMiddleware next r w =
        ⟨true, wOut.writes ++ [(500, ⟨"panic", "panic: " ++ v⟩)]⟩) ∧
    (next r w = (wOut, .ok) → RecoveryMiddleware next r w = wOut) := by
  constructor
  · intro v h
    simp [RecoveryMiddleware, h, ServerErrorResponse, wrapPanic, ErrPanic]
  · intro h
    simp [RecoveryMiddleware, h]

theorem c6_recovery_witness :
    RecoveryMiddleware (fun _ w => (w, .panicked "boom"))
        ⟨"1.2.3.4:80", "", none⟩ emptyRW =
      ⟨true, [(500, ⟨"panic", "panic: boom"⟩)]⟩ :=
  (c6_recovery (fun _ w => (w, .panicked "boom")) ⟨"1.2.3.4:80", "", none⟩
    emptyRW emptyRW).1 "boom" rfl

/-- Claim C7: the reaper wakes on the fixed one-minute interval and
sweeps with the three-minute staleness threshold; a sweep removes
exactly the entries whose lastSeen is more than the threshold in the
past and keeps every other entry unchanged; a removed identity is
treated as brand new on its next request, receiving a fresh entry whose
bucket holds the full burst. -/
theorem c7_reaper_sweep (s : Store) (now t2 : Time) (ip : String) (c : Client)
    (cfg : RateLimitConfig) :
    sweepInterval = 60 ∧ stalenessThreshold = 180 ∧
    (s ip = some c → now - c.lastSeen > stalenessThreshold →
      sweep s now ip = none) ∧
    (s ip = some c → now - c.lastSeen ≤ stalenessThreshold →
      sweep s now ip = some c) ∧
    (s ip = none → sweep s now ip = none) ∧
    (sweep s now ip = none →
      (getOrCreate (sweep s now) ip cfg t2).2 =
        ⟨Limiter.new cfg.rate cfg.burst t2, t2⟩ ∧
      (getOrCreate (sweep s now) ip cfg t2).2.limiter.tokens = (cfg.burst : ℚ)) := by
  refine ⟨rfl, rfl, ?_, ?_, ?_, ?_⟩
  · intro h1 h2
    simp [sweep, h1, h2]
  · intro h1 h2
    simp [sweep, h1, not_lt.mpr h2]
  · intro h
    simp [sweep, h]
  · intro h
    constructor
    · simp [getOrCreate, h]
    · simp [getOrCreate, h, Limiter.new]

theorem c7_reaper_sweep_witness :
    sweep (updateStore emptyStore "1.2.3.4" ⟨Limiter.new 10 20 0, 0⟩) 200
        "1.2.3.4" = none :=
  (c7_reaper_sweep (updateStore emptyStore "1.2.3.4" ⟨Limiter.new 10 20 0, 0⟩)
    200 0 "1.2.3.4" ⟨Limiter.new 10 20 0, 0⟩ ⟨true, 10, 20⟩).2.2.1
    (by simp [updateStore])
    (by norm_num [stalenessThreshold])

/-- Claim C4: for a request reaching the enabled middleware with a
parseable remote address, the fetched entry is a fresh full-bucket
entry for an unseen identity and the existing entry with lastSeen
refreshed otherwise; after the request the stored entry carries
lastSeen now regardless of the admission decision; a denial writes the
429 rate-limit-exceeded response without invoking the inner handler,
and an admission forwards the unchanged request to the inner
handler. -/
theorem c4_enabled_request (cfg : RateLimitConfig) (next : Handler) (s : Store)
    (now : Time) (r : Request) (w : RW) (ip port : String)
    (he : cfg.enabled = true)
    (hp : splitHostPort r.remoteAddr = some (ip, port)) :
    (s ip = none →
      (getOrCreate s ip cfg now).2 =
        ⟨Limiter.new cfg.rate cfg.burst now, now⟩) ∧
    (∀ c, s ip = some c →
      (getOrCreate s ip cfg now).2 = { c with lastSeen := now }) ∧
    (∃ c2, ((RateLimitMiddleware cfg next).serve s now r w).store ip = some c2 ∧
      c2.lastSeen = now) ∧
    (((getOrCreate s ip cfg now).2.limiter.allow now).1 = false →
      ((RateLimitMiddleware cfg next).serve s now r w).forwarded = false ∧
      ((RateLimitMiddleware cfg next).serve s now r w).rw =
        RateLimitExceededResponse w) ∧
    (((getOrCreate s ip cfg now).2.limiter.allow now).1 = true →
      ((RateLimitMiddleware cfg next).serve s now r w).forwarded = true ∧
      ((RateLimitMiddleware cfg next).serve s now r w).rw = next r w) := by
  have hserve : ∀ s2 : Store, (RateLimitMiddleware cfg next).serve s2 now r w =
      rateLimitHandle cfg ip next s2 now r w := by
    intro s2
    simp [RateLimitMiddleware, he, MW.serve, rateLimitStep, hp]
  refine ⟨?_, ?_, ?_, ?_, ?_⟩
  · intro h
    simp [getOrCreate, h]
  · intro c h
    simp [getOrCreate, h]
  · refine ⟨{ (getOrCreate s ip cfg now).2 with
        limiter := ((getOrCreate s ip cfg now).2.limiter.allow now).2 }, ?_, ?_⟩
    · rw [hserve, rateLimitHandle_store, updateStore_self]
    · exact getOrCreate_lastSeen s ip cfg now
  · intro h
    rw [hserve]
    simp only [rateLimitHandle]
    rw [h]
    simp
  · intro h
    rw [hserve]
    simp only [rateLimitHandle]
    rw [h]
    simp

theorem c4_enabled_request_witness :
    ((RateLimitMiddleware ⟨true, 10, 20⟩ (fun _ w => w)).serve emptyStore 0
        ⟨"1.2.3.4:80", "", none⟩ emptyRW).forwarded = true ∧
    ((RateLimitMiddleware ⟨true, 10, 20⟩ (fun _ w => w)).serve emptyStore 0
        ⟨"1.2.3.4:80", "", none⟩ emptyRW).rw = emptyRW :=
  (c4_enabled_request ⟨true, 10, 20⟩ (fun _ w => w) emptyStore 0
    ⟨"1.2.3.4:80", "", none⟩ emptyRW "1.2.3.4" "80" rfl (by decide)).2.2.2.2
    (by norm_num [getOrCreate, emptyStore, Limiter.new, Limiter.allow])

theorem allowRun_append (l : Limiter) (xs ys : List Time) :
    l.allowRun (xs ++ ys) =
      ((l.allowRun xs).1 ++ ((l.allowRun xs).2.allowRun ys).1,
        ((l.allowRun xs).2.allowRun ys).2) := by
  induction xs generalizing l with
  | nil => simp [Limiter.allowRun]
  | cons t ts ih => simp [Limiter.allowRun, ih]

theorem allowRun_drain (R : ℚ) (b : ℤ) (t : Time) :
    ∀ (k : ℕ) (tok : ℚ), (k : ℚ) ≤ tok → tok ≤ (b : ℚ) →
      Limiter.allowRun ⟨R, b, tok, t⟩ (List.replicate k t) =
        (List.replicate k true, ⟨R, b, tok - k, t⟩) := by
  intro k
  induction k with
  | zero =>
      intro tok h1 h2
      simp [Limiter.allowRun]
  | succ n ih =>
      intro tok h1 h2
      have hcast : ((n : ℚ) + 1) ≤ tok := by exact_mod_cast h1
      have h1a : (1 : ℚ) ≤ tok := by
        have hn : (0 : ℚ) ≤ (n : ℚ) := Nat.cast_nonneg n
        linarith
      have hmin : min ((b : ℚ)) (tok + (t - t) * R) = tok := by
        rw [sub_self, zero_mul, add_zero]
        exact min_eq_right h2
      have hstep : Limiter.allow ⟨R, b, tok, t⟩ t = (true, ⟨R, b, tok - 1, t⟩) := by
        simp only [Limiter.allow]
        rw [hmin, if_pos h1a]
      have hrec := ih (tok - 1) (by linarith) (by linarith)
      simp [List.replicate_succ, Limiter.allowRun, hstep, hrec]
      ring

/-- Claim C3 counterexample: the claim states that after the burst is
consumed and a wait of at least one over the rate, exactly one further
request is admitted. With burst two and rate one, a wait of two seconds
(which satisfies the bound one over the rate equals one) refills two
tokens, and the run below admits both further immediate requests: the
first two requests consume the burst, the third is denied, and the two
requests issued at time two are both admitted. -/
theorem c3_counterexample :
    (1 : ℚ) / 1 ≤ 2 ∧
    ((Limiter.new 1 2 0).allowRun [0, 0, 0, 2, 2]).1 =
      [true, true, false, true, true] := by
  constructor
  · norm_num
  · norm_num [Limiter.allowRun, Limiter.allow, Limiter.new]

/-- Claim C3 (amended): for a fresh limiter with burst B above zero and
rate R above zero, B consecutive immediate requests are all admitted
and the next immediate request is denied; after waiting at least one
over R and less than two over R seconds, exactly one further request is
admitted: the request issued then is admitted and the immediate request
after it is denied. -/
theorem c3_token_bucket (B : ℕ) (R d : ℚ) (hB : 0 < B) (hR : 0 < R)
    (hd1 : 1 / R ≤ d) (hd2 : d < 2 / R) :
    ((Limiter.new R (B : ℤ) 0).allowRun (List.replicate B 0 ++ [0, d, d])).1 =
      List.replicate B true ++ [false, true, false] := by
  have hB1 : (1 : ℚ) ≤ (B : ℚ) := by exact_mod_cast hB
  have hB0 : (0 : ℚ) ≤ (B : ℚ) := by positivity
  have hdR1 : (1 : ℚ) ≤ d * R := by
    rw [div_le_iff₀ hR] at hd1
    linarith
  have hdR2 : d * R < 2 := by
    rw [lt_div_iff₀ hR] at hd2
    linarith
  have hnew : Limiter.new R (B : ℤ) 0 = ⟨R, (B : ℤ), (B : ℚ), 0⟩ := by
    simp [Limiter.new]
  have hdrain := allowRun_drain R (B : ℤ) 0 B ((B : ℚ)) (le_refl _)
    (by push_cast; exact le_rfl)
  have hz : (B : ℚ) - (B : ℕ) = 0 := sub_self ((B : ℚ))
  have s1 : Limiter.allow ⟨R, (B : ℤ), 0, 0⟩ 0 = (false, ⟨R, (B : ℤ), 0, 0⟩) := by
    have hmin : min (((B : ℤ) : ℚ)) ((0 : ℚ) + ((0 : ℚ) - 0) * R) = 0 := by
      push_cast
      rw [sub_self, zero_mul, add_zero]
      exact min_eq_right hB0
    have hno : ¬ (1 : ℚ) ≤ 0 := by norm_num
    simp only [Limiter.allow]
    rw [hmin, if_neg hno]
  have s2 : Limiter.allow ⟨R, (B : ℤ), 0, 0⟩ d =
      (true, ⟨R, (B : ℤ), min ((B : ℚ)) (d * R) - 1, d⟩) := by
    have hmin : min (((B : ℤ) : ℚ)) ((0 : ℚ) + (d - 0) * R) =
        min ((B : ℚ)) (d * R) := by
      push_cast
      ring_nf
    have hge : (1 : ℚ) ≤ min ((B : ℚ)) (d * R) := le_min hB1 hdR1
    simp only [Limiter.allow]
    rw [hmin, if_pos hge]
  have s3 : Limiter.allow ⟨R, (B : ℤ), min ((B : ℚ)) (d * R) - 1, d⟩ d =
      (false, ⟨R, (B : ℤ), min ((B : ℚ)) (d * R) - 1, d⟩) := by
    have hle : min ((B : ℚ)) (d * R) - 1 ≤ (((B : ℤ)) : ℚ) := by
      have hmb := min_le_left ((B : ℚ)) (d * R)
      push_cast
      linarith
    have hmin : min (((B : ℤ)) : ℚ) ((min ((B : ℚ)) (d * R) - 1) + (d - d) * R) =
        min ((B : ℚ)) (d * R) - 1 := by
      rw [sub_self, zero_mul, add_zero]
      exact min_eq_right hle
    have hlt : ¬ (1 : ℚ) ≤ min ((B : ℚ)) (d * R) - 1 := by
      have hmr := min_le_right ((B : ℚ)) (d * R)
      linarith
    simp only [Limiter.allow]
    rw [hmin, if_neg hlt]
  rw [hnew, allowRun_append, hdrain]
  simp only [hz]
  simp [Limiter.allowRun, s1, s2, s3]

theorem c3_token_bucket_witness :
    ((Limiter.new 1 2 0).allowRun [0, 0, 0, 1, 1]).1 =
      [true, true, false, true, false] :=
  c3_token_bucket 2 1 1 (by decide) (by decide) (by norm_num) (by norm_num)

theorem rateLimitStep_fresh_oneShot (next : Handler) (s : Store) (t : Time)
    (r : Request) (w : RW) (ip port : String)
    (hp : splitHostPort r.remoteAddr = some (ip, port)) (hs : s ip = none) :
    (rateLimitStep oneShotCfg next s t r w).forwarded = true ∧
    (rateLimitStep oneShotCfg next s t r w).store ip =
      some ⟨⟨0, 1, 0, t⟩, t⟩ := by
  constructor <;>
    norm_num [rateLimitStep, hp, rateLimitHandle, getOrCreate, hs, Limiter.new,
      Limiter.allow, oneShotCfg, updateStore]

theorem rateLimitStep_drained (cfg : RateLimitConfig) (next : Handler)
    (s : Store) (t : Time) (r : Request) (w : RW) (ip port : String)
    (c : Client) (hp : splitHostPort r.remoteAddr = some (ip, port))
    (hs : s ip = some c) (hr : c.limiter.rate = 0)
    (htok : c.limiter.tokens ≤ 0) (hb : (0 : ℚ) ≤ ((c.limiter.burst : ℚ))) :
    (rateLimitStep cfg next s t r w).forwarded = false ∧
    (rateLimitStep cfg next s t r w).store ip =
      some ⟨⟨c.limiter.rate, c.limiter.burst, c.limiter.tokens, t⟩, t⟩ := by
  have hstep : rateLimitStep cfg next s t r w =
      rateLimitHandle cfg ip next s t r w := by
    simp [rateLimitStep, hp]
  have hentry : (getOrCreate s ip cfg t).2 = { c with lastSeen := t } := by
    simp [getOrCreate, hs]
  have hallow : c.limiter.allow t =
      (false, ⟨c.limiter.rate, c.limiter.burst, c.limiter.tokens, t⟩) := by
    have hmin : min ((c.limiter.burst : ℚ))
        (c.limiter.tokens + (t - c.limiter.last) * c.limiter.rate) =
        c.limiter.tokens := by
      rw [hr, mul_zero, add_zero]
      exact min_eq_right (htok.trans hb)
    have hno : ¬ (1 : ℚ) ≤ c.limiter.tokens := by linarith
    simp only [Limiter.allow]
    rw [hmin, if_neg hno]
  constructor
  · rw [hstep, rateLimitHandle_forwarded, hentry]
    simp [hallow]
  · rw [hstep, rateLimitHandle_store, hentry, updateStore_self]
    simp [hallow]

theorem runDecisions_drained (r : Request) (ip port : String)
    (hp : splitHostPort r.remoteAddr = some (ip, port)) :
    ∀ (ts : List Time) (s : Store) (c : Client), s ip = some c →
      c.limiter.rate = 0 → c.limiter.tokens ≤ 0 →
      (0 : ℚ) ≤ ((c.limiter.burst : ℚ)) →
      runDecisions oneShotCfg r s ts = List.replicate ts.length false := by
  intro ts
  induction ts with
  | nil =>
      intro s c _ _ _ _
      rfl
  | cons t ts ih =>
      intro s c hs hr htok hb
      have h := rateLimitStep_drained oneShotCfg (fun _ w => w) s t r emptyRW
        ip port c hp hs hr htok hb
      have h2 := ih (rateLimitStep oneShotCfg (fun _ w => w) s t r emptyRW).store
        ⟨⟨c.limiter.rate, c.limiter.burst, c.limiter.tokens, t⟩, t⟩ h.2
        (by simpa using hr) (by simpa using htok) (by simpa using hb)
      simp only [runDecisions]
      rw [h.1, h2, List.length_cons, List.replicate_succ]

/-- Claim C9: the coarse mutex of the source linearizes every set of
concurrent requests into some serialized schedule, and the theorem
quantifies over all such schedules. A schedule of N requests from one
identity against the enabled burst-one rate-zero configuration admits
exactly the first request and denies the other N minus 1, whatever the
instants of the schedule; and a request from one identity neither
touches the stored entry of a different identity nor takes its
admission decision from anything but its own entry, so distinct
identities never influence each other. -/
theorem c9_single_admission_and_isolation (cfg : RateLimitConfig)
    (next : Handler) (s1 s2 : Store) (now : Time) (w : RW) (r : Request)
    (ip port b : String) (ts : List Time)
    (hp : splitHostPort r.remoteAddr = some (ip, port)) (hts : ts ≠ [])
    (hb : b ≠ ip) (hagree : s1 ip = s2 ip) :
    (runDecisions oneShotCfg r emptyStore ts).count true = 1 ∧
    (runDecisions oneShotCfg r emptyStore ts).count false = ts.length - 1 ∧
    (rateLimitStep cfg next s1 now r w).store b = s1 b ∧
    (rateLimitStep cfg next s1 now r w).forwarded =
      (rateLimitStep cfg next s2 now r w).forwarded := by
  have hstep : ∀ s : Store, rateLimitStep cfg next s now r w =
      rateLimitHandle cfg ip next s now r w := by
    intro s
    simp [rateLimitStep, hp]
  obtain ⟨t, ts', rfl⟩ : ∃ t ts', ts = t :: ts' := by
    cases ts with
    | nil => exact absurd rfl hts
    | cons a l => exact ⟨a, l, rfl⟩
  have hfresh := rateLimitStep_fresh_oneShot (fun _ w => w) emptyStore t r
    emptyRW ip port hp rfl
  have hrest := runDecisions_drained r ip port hp ts'
    (rateLimitStep oneShotCfg (fun _ w => w) emptyStore t r emptyRW).store
    ⟨⟨0, 1, 0, t⟩, t⟩ hfresh.2 rfl (le_refl 0) (by norm_num)
  have hdec : runDecisions oneShotCfg r emptyStore (t :: ts') =
      true :: List.replicate ts'.length false := by
    simp only [runDecisions]
    rw [hfresh.1, hrest]
  have hcz : List.count true (List.replicate ts'.length false) = 0 :=
    List.count_eq_zero.mpr (by simp)
  refine ⟨?_, ?_, ?_, ?_⟩
  · rw [hdec]
    simp [hcz]
  · rw [hdec]
    simp
  · rw [hstep, rateLimitHandle_store, updateStore_ne _ _ _ _ hb,
      getOrCreate_fst_ne _ _ _ _ _ hb]
  · rw [hstep, hstep, rateLimitHandle_forwarded, rateLimitHandle_forwarded,
      getOrCreate_agree s1 s2 ip cfg now hagree]

theorem c9_single_admission_and_isolation_witness :
    (runDecisions oneShotCfg ⟨"1.2.3.4:80", "", none⟩ emptyStore
        [0, 0, 0]).count true = 1 ∧
    (runDecisions oneShotCfg ⟨"1.2.3.4:80", "", none⟩ emptyStore
        [0, 0, 0]).count false = 2 ∧
    (rateLimitStep ⟨true, 10, 20⟩ (fun _ w => w) emptyStore 0
        ⟨"1.2.3.4:80", "", none⟩ emptyRW).store "5.6.7.8" =
      emptyStore "5.6.7.8" ∧
    (rateLimitStep ⟨true, 10, 20⟩ (fun _ w => w) emptyStore 0
        ⟨"1.2.3.4:80", "", none⟩ emptyRW).forwarded =
      (rateLimitStep ⟨true, 10, 20⟩ (fun _ w => w) emptyStore 0
        ⟨"1.2.3.4:80", "", none⟩ emptyRW).forwarded :=
  c9_single_admission_and_isolation ⟨true, 10, 20⟩ (fun _ w => w) emptyStore
    emptyStore 0 emptyRW ⟨"1.2.3.4:80", "", none⟩ "1.2.3.4" "80" "5.6.7.8"
    [0, 0, 0] (by decide) (by decide) (by decide) rfl

end GoWeb
